import Mathlib

/-!
Shallow embedding of `src/eurostat_downloader.py` (class `EurostatDownloader`).

Strings are modelled by Lean `String` / `List Char`; Python `str.split` with a
non-empty separator is `pySplit` below; the filesystem is an association list
from paths to contents; the HTTP client, the HTML parsing library and the
possibility of a `write_bytes` fault are an explicit environment (`Env`) of
oracle functions, since they are external collaborators of the program.
Wall-clock time for the rate limiter is modelled in integer milliseconds.
-/

namespace Eurostat

/-! ## Python `str.split` over character lists

`pySplitF sep fuel s` scans `s` left to right; whenever `sep` matches at the
current position it cuts, emits the accumulated piece and resumes after the
matched occurrence, exactly as Python's `str.split(sep)` with a non-empty
separator does.  `fuel` only serves to make the recursion structural; any
`fuel ≥ s.length` gives the same value. -/

def pySplitF (sep : List Char) : Nat → List Char → List (List Char)
  | _, [] => [[]]
  | 0, s => [s]
  | fuel + 1, c :: rest =>
    if sep <+: (c :: rest) then
      [] :: pySplitF sep fuel ((c :: rest).drop sep.length)
    else
      match pySplitF sep fuel rest with
      | [] => [[c]]
      | p :: ps => (c :: p) :: ps

def pySplit (sep s : List Char) : List (List Char) :=
  pySplitF sep s.length s

/-- Python `xs[-1]` on a non-empty list (`pySplit` never returns `[]`). -/
def lastPiece : List (List Char) → List Char
  | [] => []
  | p :: ps => match ps with
    | [] => p
    | q :: qs => lastPiece (q :: qs)

/-- The marker token of `fetch_all` (line 106 of the source). -/
def FILENAME_MARKER : String := "downfile=data%2F"

/-- `dataset_url.split("downfile=data%2F")[-1]` — the derived filename
(line 106 of the source). -/
def derivedFilename (url : String) : String :=
  ⟨lastPiece (pySplit FILENAME_MARKER.toList url.toList)⟩

/-! ## Spec-side filename derivation

`afterLast sep s` is the suffix of `s` strictly after the last (rightmost)
occurrence of `sep` in `s`, or `none` when `sep` (assumed non-empty) does not
occur in `s`.  Occurrences further right — found in the tail — take
precedence over a match at the current position. -/

def afterLast (sep : List Char) : List Char → Option (List Char)
  | [] => none
  | c :: rest =>
    match afterLast sep rest with
    | some t => some t
    | none =>
      if sep <+: (c :: rest) then some ((c :: rest).drop sep.length) else none

/-- The spec's words: "the substring of the URL following the last occurrence
of the marker token `downfile=data%2F`; if the marker is absent, the derived
filename is the whole URL". -/
def filenameSpec (url : String) : String :=
  ⟨(afterLast FILENAME_MARKER.toList url.toList).getD url.toList⟩

/-- `sep` has no non-trivial border: no proper non-empty suffix of `sep` is a
prefix of `sep`.  This rules out self-overlapping occurrences. -/
def BorderFree (sep : List Char) : Prop :=
  ∀ k, k < sep.length → 0 < k → ¬ (sep.drop k <+: sep)

/-! ## Rate limiter (`_stagger`, lines 45-52, and `__init__` line 31)

`staggerSleepAmount` is the number of milliseconds the method sleeps:
`remaining_stagger = last_stagger_finished + stagger_amount - now`, slept only
when positive.  `staggerStep` returns the new `last_stagger_finished`: the
clock reading taken after the (possible) sleep; `slack ≥ 0` is how much the
real clock overshoots the minimum (sleep never wakes early, and reading the
clock itself takes time). -/

def last_stagger_finished_init : Int := 0

def staggerSleepAmount (stagger_amount last_stagger_finished now : Int) : Int :=
  let remaining_stagger := last_stagger_finished + stagger_amount - now
  if remaining_stagger > 0 then remaining_stagger else 0

def staggerStep (stagger_amount last_stagger_finished now : Int) (slack : Nat) : Int :=
  now + staggerSleepAmount stagger_amount last_stagger_finished now + slack

/-- Completion times of a run of successive `_stagger` calls: each call is
given the clock reading at its start and the slack of its sleep/second
reading; the outbound HTTP request of the caller starts at the returned
completion time. -/
def staggerTrace (stagger_amount : Int) (last : Int) : List (Int × Nat) → List Int
  | [] => []
  | (now, slack) :: rest =>
    let c := staggerStep stagger_amount last now slack
    c :: staggerTrace stagger_amount c rest

/-! ## Configuration, environment and filesystem -/

/-- The constructor arguments (`__init__`, lines 17-31); immutable. -/
structure Config where
  list_url : String
  stagger_amount : Int
  quiet : Bool

/-- An HTML anchor element as seen through BeautifulSoup: its `href`
attribute (if present) and its visible text. -/
structure Anchor where
  href : Option String
  text : String

/-- The filesystem under the storage directory: association of path to file
contents.  `Path.exists` checks only presence of the path. -/
abbrev FS := List (String × String)

def fsExists (fs : FS) (p : String) : Bool :=
  fs.any (fun e => e.1 == p)

/-- `path.write_bytes(content)`: overwrites any previous entry at `p`. -/
def fsWrite (fs : FS) (p c : String) : FS :=
  (p, c) :: fs.filter (fun e => e.1 != p)

/-- `storage_path / filename` (pathlib `/` on a relative filename). -/
def mkPath (dir f : String) : String := dir ++ "/" ++ f

/-- The program's external collaborators: `requests.get` (returning a
response body or raising), BeautifulSoup parsing of a body into its anchor
elements, and the fault model of `Path.write_bytes` (an error message when
the write raises for that path). -/
structure Env where
  get : String → Except String String
  parse : String → List Anchor
  writeErr : String → Option String

/-! ## `_download_file` (lines 54-71)

Result of one call: the returned boolean, the filesystem afterwards, the
lines printed to stderr, the URLs requested over HTTP, and the paths for
which a write was attempted.  The `_stagger()` call on line 60 only spends
time; it is modelled by `staggerStep` above and contributes nothing to these
components. -/

structure DlResult where
  ok : Bool
  fs : FS
  stderr : List String
  requests : List String
  writes : List String
deriving DecidableEq

def download_file (env : Env) (url path : String) (fs : FS) : DlResult :=
  match env.get url with
  | .error ex => ⟨false, fs, ["Failed to download " ++ url ++ ": " ++ ex], [url], []⟩
  | .ok content =>
    match env.writeErr path with
    | some ex => ⟨false, fs, ["Failed to store " ++ path ++ ": " ++ ex], [url], [path]⟩
    | none => ⟨true, fsWrite fs path content, [], [url], [path]⟩

/-! ## `_get_html` / `_crawl_dataset_urls` (lines 73-91) -/

/-- `html.findAll("a", href=True, text="Download")`: the anchors that have an
`href` attribute and whose text is exactly the given string, in document
order. -/
def findAllAnchors (anchors : List Anchor) (hrefRequired : Bool) (textFilter : String) :
    List Anchor :=
  anchors.filter (fun a => (!hrefRequired || a.href.isSome) && a.text == textFilter)

/-- `a["href"]` — attribute access; `findAll` with `href=True` guarantees the
attribute is present, so the default is never exposed. -/
def attrHref (a : Anchor) : String := a.href.getD ""

/-- Line 91: `[a["href"] for a in html.findAll("a", href=True, text="Download")]`. -/
def crawlHrefs (anchors : List Anchor) : List String :=
  (findAllAnchors anchors true "Download").map attrHref

/-- `_crawl_dataset_urls` as far as its value is concerned: the GET of the
listing URL is not wrapped in try/except, so a raising GET propagates as a
`.error`.  (Line 89's bare `self._stagger` is a no-op attribute access; the
staggering happens inside `_get_html`.) -/
def crawl_dataset_urls (env : Env) (listing_url : String) : Except String (List String) :=
  (env.get listing_url).map (fun body => crawlHrefs (env.parse body))

/-! ## `fetch_all` (lines 93-126) -/

/-- `self._print(text)`: one stdout line unless quiet. -/
def mprint (cfg : Config) (text : String) : List String :=
  if cfg.quiet then [] else [text]

def summaryLine (total : Nat) (stagger_amount : Int) : String :=
  "Found total " ++ toString total ++ " datasets, downloading with " ++
    toString stagger_amount ++ " millisecond staggering"

def skipLine (idx total : Nat) (filename file : String) : String :=
  "[" ++ toString (idx + 1) ++ "/" ++ toString total ++ "] SKIP: already found " ++
    filename ++ " at " ++ file

def successLine (idx total : Nat) (filename file : String) : String :=
  "[" ++ toString (idx + 1) ++ "/" ++ toString total ++ "] SUCCESS: stored " ++
    filename ++ " to " ++ file

def failureLine (idx total : Nat) (url : String) : String :=
  "[" ++ toString (idx + 1) ++ "/" ++ toString total ++ "] FAILURE: unable to download " ++ url

/-- Observable result of a run: stdout lines, stderr lines, the URLs
requested over HTTP in order, and the final filesystem. -/
structure RunResult where
  stdout : List String
  stderr : List String
  requests : List String
  fs : FS
deriving DecidableEq

/-- The `for idx, dataset_url in enumerate(dataset_urls)` loop of
`fetch_all`, lines 105-126, started at a given 0-based `idx`. -/
def fetch_loop (cfg : Config) (env : Env) (storage : String) (total : Nat) :
    List String → Nat → FS → RunResult
  | [], _, fs => ⟨[], [], [], fs⟩
  | dataset_url :: rest, idx, fs =>
    let filename := derivedFilename dataset_url
    let file := mkPath storage filename
    if fsExists fs file then
      let r := fetch_loop cfg env storage total rest (idx + 1) fs
      ⟨mprint cfg (skipLine idx total filename file) ++ r.stdout, r.stderr, r.requests, r.fs⟩
    else
      let d := download_file env dataset_url file fs
      let r := fetch_loop cfg env storage total rest (idx + 1) d.fs
      if d.ok then
        ⟨mprint cfg (successLine idx total filename file) ++ r.stdout,
          d.stderr ++ r.stderr, d.requests ++ r.requests, r.fs⟩
      else
        ⟨mprint cfg (failureLine idx total dataset_url) ++ r.stdout,
          d.stderr ++ r.stderr, d.requests ++ r.requests, r.fs⟩

/-- `fetch_all(storage_path)`: crawl the listing (uncaught failure of the
listing GET propagates as `.error`), print the summary, then run the loop. -/
def fetch_all (cfg : Config) (env : Env) (storage : String) (fs0 : FS) :
    Except String RunResult :=
  match env.get cfg.list_url with
  | .error e => .error e
  | .ok body =>
    let dataset_urls := crawlHrefs (env.parse body)
    let total_count := dataset_urls.length
    let r := fetch_loop cfg env storage total_count dataset_urls 0 fs0
    .ok ⟨mprint cfg (summaryLine total_count cfg.stagger_amount) ++ r.stdout,
      r.stderr, cfg.list_url :: r.requests, r.fs⟩

/-! ## Fixtures for concrete witnesses and counterexamples -/

/-- A listing page with one failing dataset download. -/
def c1Env : Env :=
  ⟨fun u => if u == "L" then .ok "B" else if u == "u1" then .ok "D1" else .error "netdown",
   fun _ => [⟨some "u1", "Download"⟩, ⟨some "u2", "Download"⟩],
   fun _ => none⟩

def c3Env : Env := ⟨fun _ => .error "x", fun _ => [], fun _ => none⟩

/-- Every GET raises. -/
def c4EnvNet : Env := ⟨fun _ => .error "down", fun _ => [], fun _ => none⟩

/-- Every GET succeeds but every write raises. -/
def c4EnvWrite : Env := ⟨fun _ => .ok "B", fun _ => [], fun _ => some "denied"⟩

/-- One dataset whose download always succeeds. -/
def c7Env : Env :=
  ⟨fun u => if u == "L" then .ok "B" else .ok "DATA",
   fun _ => [⟨some "downfile=data%2Ff.gz", "Download"⟩],
   fun _ => none⟩

/-- One dataset whose download always fails with a network error. -/
def c7BadEnv : Env :=
  ⟨fun u => if u == "L" then .ok "B" else .error "boom",
   fun _ => [⟨some "u", "Download"⟩],
   fun _ => none⟩

def c9Env : Env := ⟨fun _ => .error "refused", fun _ => [], fun _ => none⟩

/-- "the line for the item at 1-based index i is prefixed [i/N] and is a SKIP,
SUCCESS, or FAILURE line in the literal formats of section 4.4" — here `i` is
the 0-based index, printed as `i + 1`. -/
def itemLineOk (i N : Nat) (url storage line : String) : Prop :=
  line = skipLine i N (derivedFilename url) (mkPath storage (derivedFilename url)) ∨
  line = successLine i N (derivedFilename url) (mkPath storage (derivedFilename url)) ∨
  line = failureLine i N url

/-! ## Theorems -/

lemma staggerStep_lb (S last now : Int) (slack : Nat) :
    last + S ≤ staggerStep S last now slack := by
  unfold staggerStep staggerSleepAmount
  dsimp only
  split <;> omega

lemma staggerTrace_chain (S : Int) (calls : List (Int × Nat)) :
    ∀ last, (staggerTrace S last calls).Chain' (fun a b => a + S ≤ b) := by
  induction calls with
  | nil => intro last; simp [staggerTrace]
  | cons c rest ih =>
    intro last
    obtain ⟨now, slack⟩ := c
    rw [staggerTrace, List.chain'_cons']
    refine ⟨?_, ih _⟩
    intro h hh
    cases rest with
    | nil => simp [staggerTrace] at hh
    | cons d ds =>
      obtain ⟨n2, s2⟩ := d
      rw [staggerTrace] at hh
      simp only [List.head?_cons, Option.mem_def, Option.some.injEq] at hh
      subst hh
      exact staggerStep_lb S _ n2 s2

/-- C5: for every configured stagger interval S ≥ 0, each `_stagger` call
completes (records its post-sleep clock reading) at least S milliseconds
after the previous call's recorded completion, so in a run whose outbound
HTTP requests each start at the completion time of the `_stagger` call
guarding them, consecutive request start times are at least S apart. -/
theorem C5_stagger_spacing (S : Int) (hS : 0 ≤ S) (last0 : Int) (calls : List (Int × Nat)) :
    (∀ last now : Int, ∀ slack : Nat, last + S ≤ staggerStep S last now slack) ∧
    (staggerTrace S last0 calls).Chain' (fun a b => a + S ≤ b) :=
  ⟨fun last now slack => staggerStep_lb S last now slack, staggerTrace_chain S calls last0⟩

/-- Witness for C5 at S = 2000, two calls. -/
theorem C5_stagger_spacing_witness :
    (∀ last now : Int, ∀ slack : Nat, last + 2000 ≤ staggerStep 2000 last now slack) ∧
    (staggerTrace 2000 0 [(100, 0), (2100, 5)]).Chain' (fun a b => a + 2000 ≤ b) :=
  C5_stagger_spacing 2000 (by decide) 0 [(100, 0), (2100, 5)]

/-- C6 counterexample: on the first call after construction
(`last_stagger_finished = 0`), with stagger interval 1000 ms and current
clock value 5 ms since the epoch, the code computes a positive remaining
stagger and sleeps — refuting "no wait occurs ... for every value of the
stagger interval and every current clock value". -/
theorem C6_counterexample :
    0 < staggerSleepAmount 1000 last_stagger_finished_init 5 := by decide

/-- C6 (amended): on the first call to `_stagger` after construction no wait
occurs provided the current clock value (milliseconds since the epoch) is at
least the stagger interval — `last_stagger_finished` is initialised to 0, so
the first call's computed remaining stagger is `S - now ≤ 0`. -/
theorem C6_first_call_no_wait (S now : Int) (h : S ≤ now) :
    staggerSleepAmount S last_stagger_finished_init now = 0 := by
  unfold staggerSleepAmount last_stagger_finished_init
  dsimp only
  split <;> omega

/-- Witness for the amended C6 at a realistic clock value. -/
theorem C6_first_call_no_wait_witness :
    (2000 : Int) ≤ 1760227200000 ∧
    staggerSleepAmount 2000 last_stagger_finished_init 1760227200000 = 0 :=
  ⟨by decide, C6_first_call_no_wait 2000 1760227200000 (by decide)⟩

lemma crawlHrefs_eq_filterMap (anchors : List Anchor) :
    crawlHrefs anchors =
      anchors.filterMap (fun a => if a.text = "Download" then a.href else none) := by
  induction anchors with
  | nil => rfl
  | cons a l ih =>
    simp only [crawlHrefs, findAllAnchors, List.filter_cons, List.filterMap_cons,
      Bool.not_true, Bool.false_or] at ih ⊢
    rcases ha : a.href with _ | h <;> by_cases ht : a.text = "Download" <;>
      simp [ha, ht, ih, attrHref]

/-- C8: the listing crawler returns exactly the href attribute values of the
anchors whose visible text is the literal "Download", in document order with
duplicates preserved; anchors with other text (or without an href attribute)
contribute nothing. -/
theorem C8_link_extraction (env : Env) (listing_url : String) :
    crawl_dataset_urls env listing_url =
      (env.get listing_url).map (fun body =>
        (env.parse body).filterMap (fun a => if a.text = "Download" then a.href else none)) := by
  unfold crawl_dataset_urls
  cases env.get listing_url with
  | error e => rfl
  | ok body => simp [crawlHrefs_eq_filterMap]

/-- C9: if the HTTP GET for an individual dataset raises, `_download_file`
returns the failure outcome with the filesystem unchanged and no write
attempted. -/
theorem C9_net_failure_no_write (env : Env) (url path : String) (fs : FS) (e : String)
    (h : env.get url = Except.error e) :
    download_file env url path fs =
      ⟨false, fs, ["Failed to download " ++ url ++ ": " ++ e], [url], []⟩ := by
  unfold download_file
  rw [h]

/-- Witness for C9. -/
theorem C9_net_failure_no_write_witness :
    download_file c9Env "u" "out/f" [] =
      ⟨false, [], ["Failed to download u: refused"], ["u"], []⟩ :=
  C9_net_failure_no_write c9Env "u" "out/f" [] "refused" rfl

lemma fetch_loop_quiet (lu : String) (S : Int) (env : Env) (storage : String) (total : Nat) :
    ∀ (urls : List String) (idx : Nat) (fs : FS),
      fetch_loop ⟨lu, S, true⟩ env storage total urls idx fs =
        { fetch_loop ⟨lu, S, false⟩ env storage total urls idx fs with stdout := [] } := by
  intro urls
  induction urls with
  | nil => intro idx fs; rfl
  | cons u rest ih =>
    intro idx fs
    simp only [fetch_loop, mprint]
    split
    · simp [ih]
    · split <;> simp [ih]

/-- C10: the quiet flag influences only stdout: a quiet run of `fetch_all`
equals the corresponding non-quiet run with its stdout emptied — in
particular the HTTP requests issued, the stderr output and the final
filesystem are identical. -/
theorem C10_quiet_only_stdout (list_url : String) (stagger_amount : Int)
    (env : Env) (storage : String) (fs0 : FS) :
    fetch_all ⟨list_url, stagger_amount, true⟩ env storage fs0 =
      (fetch_all ⟨list_url, stagger_amount, false⟩ env storage fs0).map
        (fun r => ⟨[], r.stderr, r.requests, r.fs⟩) := by
  unfold fetch_all
  cases env.get list_url with
  | error e => rfl
  | ok body => simp [mprint, fetch_loop_quiet, Except.map]

/-- C3: for an item whose target path (storage directory joined with the
derived filename) already exists — no matter what content is stored there —
the loop emits the SKIP line, issues no HTTP request for that item, leaves
the filesystem unchanged, and proceeds with the remaining items. -/
theorem C3_skip_before_network (cfg : Config) (env : Env) (storage : String) (total : Nat)
    (url : String) (rest : List String) (idx : Nat) (fs : FS)
    (hq : cfg.quiet = false)
    (hex : fsExists fs (mkPath storage (derivedFilename url)) = true) :
    fetch_loop cfg env storage total (url :: rest) idx fs =
      ⟨skipLine idx total (derivedFilename url) (mkPath storage (derivedFilename url)) ::
         (fetch_loop cfg env storage total rest (idx + 1) fs).stdout,
       (fetch_loop cfg env storage total rest (idx + 1) fs).stderr,
       (fetch_loop cfg env storage total rest (idx + 1) fs).requests,
       (fetch_loop cfg env storage total rest (idx + 1) fs).fs⟩ := by
  simp [fetch_loop, hex, mprint, hq]

/-- Witness for C3: the target path `out/u` pre-exists (with arbitrary
content "X"), so the item is skipped without a request. -/
theorem C3_skip_before_network_witness :
    fetch_loop ⟨"L", 0, false⟩ c3Env "out" 1 ["u"] 0 [("out/u", "X")] =
      ⟨skipLine 0 1 (derivedFilename "u") (mkPath "out" (derivedFilename "u")) ::
         (fetch_loop ⟨"L", 0, false⟩ c3Env "out" 1 [] 1 [("out/u", "X")]).stdout,
       (fetch_loop ⟨"L", 0, false⟩ c3Env "out" 1 [] 1 [("out/u", "X")]).stderr,
       (fetch_loop ⟨"L", 0, false⟩ c3Env "out" 1 [] 1 [("out/u", "X")]).requests,
       (fetch_loop ⟨"L", 0, false⟩ c3Env "out" 1 [] 1 [("out/u", "X")]).fs⟩ :=
  C3_skip_before_network ⟨"L", 0, false⟩ c3Env "out" 1 "u" [] 0 [("out/u", "X")]
    rfl (by decide)

/-- C4: error handling is asymmetric.  (1) A failure of the listing-page GET
propagates uncaught out of `fetch_all`, terminating the run before any
per-item processing.  (2) A network failure during an individual download is
caught inside `_download_file`, logged to stderr as
"Failed to download {url}: {error}", and the failure outcome is returned.
(3) A filesystem-write failure is likewise caught and logged as
"Failed to store {path}: {error}".  (4) A failing item yields a FAILURE line
and the loop continues with the remaining items. -/
theorem C4_error_asymmetry :
    (∀ (cfg : Config) (env : Env) (storage : String) (fs0 : FS) (e : String),
        env.get cfg.list_url = Except.error e →
        fetch_all cfg env storage fs0 = Except.error e) ∧
    (∀ (env : Env) (url path : String) (fs : FS) (e : String),
        env.get url = Except.error e →
        download_file env url path fs =
          ⟨false, fs, ["Failed to download " ++ url ++ ": " ++ e], [url], []⟩) ∧
    (∀ (env : Env) (url path : String) (fs : FS) (body e : String),
        env.get url = Except.ok body → env.writeErr path = some e →
        download_file env url path fs =
          ⟨false, fs, ["Failed to store " ++ path ++ ": " ++ e], [url], [path]⟩) ∧
    (∀ (cfg : Config) (env : Env) (storage : String) (total : Nat)
        (url : String) (rest : List String) (idx : Nat) (fs : FS) (e : String),
        cfg.quiet = false →
        fsExists fs (mkPath storage (derivedFilename url)) = false →
        env.get url = Except.error e →
        fetch_loop cfg env storage total (url :: rest) idx fs =
          ⟨failureLine idx total url ::
             (fetch_loop cfg env storage total rest (idx + 1) fs).stdout,
           ("Failed to download " ++ url ++ ": " ++ e) ::
             (fetch_loop cfg env storage total rest (idx + 1) fs).stderr,
           url :: (fetch_loop cfg env storage total rest (idx + 1) fs).requests,
           (fetch_loop cfg env storage total rest (idx + 1) fs).fs⟩) := by
  refine ⟨?_, ?_, ?_, ?_⟩
  · intro cfg env storage fs0 e h
    unfold fetch_all
    rw [h]
  · intro env url path fs e h
    unfold download_file
    rw [h]
  · intro env url path fs body e hg hw
    unfold download_file
    rw [hg, hw]
  · intro cfg env storage total url rest idx fs e hq hex hget
    simp [fetch_loop, hex, download_file, hget, mprint, hq]

/-- Witness for C4: each of the four parts instantiated — listing failure
aborts the run; net failure and write failure are converted into the failure
outcome with the literal stderr message; a failing first item still lets the
loop continue on the rest. -/
theorem C4_error_asymmetry_witness :
    fetch_all ⟨"L", 0, false⟩ c4EnvNet "out" [] = Except.error "down" ∧
    download_file c4EnvNet "u" "out/u" [] =
      ⟨false, [], ["Failed to download u: down"], ["u"], []⟩ ∧
    download_file c4EnvWrite "u" "out/u" [] =
      ⟨false, [], ["Failed to store out/u: denied"], ["u"], ["out/u"]⟩ ∧
    fetch_loop ⟨"L", 0, false⟩ c4EnvNet "out" 2 ["u", "v"] 0 [] =
      ⟨failureLine 0 2 "u" ::
         (fetch_loop ⟨"L", 0, false⟩ c4EnvNet "out" 2 ["v"] 1 []).stdout,
       ("Failed to download u: down") ::
         (fetch_loop ⟨"L", 0, false⟩ c4EnvNet "out" 2 ["v"] 1 []).stderr,
       "u" :: (fetch_loop ⟨"L", 0, false⟩ c4EnvNet "out" 2 ["v"] 1 []).requests,
       (fetch_loop ⟨"L", 0, false⟩ c4EnvNet "out" 2 ["v"] 1 []).fs⟩ :=
  ⟨C4_error_asymmetry.1 ⟨"L", 0, false⟩ c4EnvNet "out" [] "down" rfl,
   C4_error_asymmetry.2.1 c4EnvNet "u" "out/u" [] "down" rfl,
   C4_error_asymmetry.2.2.1 c4EnvWrite "u" "out/u" [] "B" "denied" rfl rfl,
   C4_error_asymmetry.2.2.2 ⟨"L", 0, false⟩ c4EnvNet "out" 2 "u" ["v"] 0 [] "down"
     rfl (by decide) rfl⟩

lemma fetch_loop_lines (cfg : Config) (env : Env) (storage : String) (total : Nat)
    (hq : cfg.quiet = false) :
    ∀ (urls : List String) (idx : Nat) (fs : FS),
      (fetch_loop cfg env storage total urls idx fs).stdout.length = urls.length ∧
      ∀ j, j < urls.length →
        itemLineOk (idx + j) total (urls.getD j "") storage
          ((fetch_loop cfg env storage total urls idx fs).stdout.getD j "") := by
  intro urls
  induction urls with
  | nil => intro idx fs; exact ⟨rfl, fun j hj => absurd hj (Nat.not_lt_zero j)⟩
  | cons u rest ih =>
    intro idx fs
    by_cases hex : fsExists fs (mkPath storage (derivedFilename u)) = true
    · simp only [fetch_loop, hex, if_pos, mprint, hq, Bool.false_eq_true,
        if_false, List.cons_append, List.nil_append]
      refine ⟨by simp [(ih (idx + 1) fs).1], ?_⟩
      intro j hj
      cases j with
      | zero => exact Or.inl (by simp)
      | succ j =>
        have h2 := (ih (idx + 1) fs).2 j (by simpa using hj)
        have harith : idx + (j + 1) = (idx + 1) + j := by omega
        rw [harith]
        simpa using h2
    · have hex' : fsExists fs (mkPath storage (derivedFilename u)) = false := by
        simpa using hex
      by_cases hok : (download_file env u (mkPath storage (derivedFilename u)) fs).ok = true
      · simp only [fetch_loop, hex', Bool.false_eq_true, if_false, hok, if_pos, mprint, hq,
          List.cons_append, List.nil_append]
        set fs' := (download_file env u (mkPath storage (derivedFilename u)) fs).fs with hfs'
        refine ⟨by simp [(ih (idx + 1) fs').1], ?_⟩
        intro j hj
        cases j with
        | zero => exact Or.inr (Or.inl (by simp))
        | succ j =>
          have h2 := (ih (idx + 1) fs').2 j (by simpa using hj)
          have harith : idx + (j + 1) = (idx + 1) + j := by omega
          rw [harith]
          simpa using h2
      · simp only [fetch_loop, hex', Bool.false_eq_true, if_false, hok, mprint, hq,
          List.cons_append, List.nil_append]
        set fs' := (download_file env u (mkPath storage (derivedFilename u)) fs).fs with hfs'
        refine ⟨by simp [(ih (idx + 1) fs').1], ?_⟩
        intro j hj
        cases j with
        | zero => exact Or.inr (Or.inr (by simp))
        | succ j =>
          have h2 := (ih (idx + 1) fs').2 j (by simpa using hj)
          have harith : idx + (j + 1) = (idx + 1) + j := by omega
          rw [harith]
          simpa using h2

/-- C1: when not quiet and the listing GET succeeds, `fetch_all` emits one
summary line followed by exactly one line per discovered dataset URL, in
listing order; the line for the item at 0-based index j is the SKIP, SUCCESS
or FAILURE line (in the literal section-4.4 formats) for that URL with the
1-based prefix [j+1/N] — in particular a failing download does not stop the
remaining items from being processed and reported. -/
theorem C1_console_contract (cfg : Config) (env : Env) (storage : String) (fs0 : FS)
    (body : String) (hq : cfg.quiet = false) (hget : env.get cfg.list_url = Except.ok body) :
    ∃ r : RunResult,
      fetch_all cfg env storage fs0 = Except.ok r ∧
      r.stdout.length = (crawlHrefs (env.parse body)).length + 1 ∧
      r.stdout.getD 0 "" =
        summaryLine (crawlHrefs (env.parse body)).length cfg.stagger_amount ∧
      ∀ j, j < (crawlHrefs (env.parse body)).length →
        itemLineOk j (crawlHrefs (env.parse body)).length
          ((crawlHrefs (env.parse body)).getD j "") storage
          ((r.stdout.drop 1).getD j "") := by
  unfold fetch_all
  rw [hget]
  refine ⟨_, rfl, ?_, ?_, ?_⟩
  · simp [mprint, hq,
      (fetch_loop_lines cfg env storage (crawlHrefs (env.parse body)).length hq
        (crawlHrefs (env.parse body)) 0 fs0).1]
  · simp [mprint, hq]
  · intro j hj
    have h2 := (fetch_loop_lines cfg env storage (crawlHrefs (env.parse body)).length hq
      (crawlHrefs (env.parse body)) 0 fs0).2 j hj
    simpa [mprint, hq] using h2

/-- Witness for C1: a two-item listing where the first download succeeds and
the second fails with a network error. -/
theorem C1_console_contract_witness :
    ∃ r : RunResult,
      fetch_all ⟨"L", 2000, false⟩ c1Env "out" [] = Except.ok r ∧
      r.stdout.length = (crawlHrefs (c1Env.parse "B")).length + 1 ∧
      r.stdout.getD 0 "" = summaryLine (crawlHrefs (c1Env.parse "B")).length 2000 ∧
      ∀ j, j < (crawlHrefs (c1Env.parse "B")).length →
        itemLineOk j (crawlHrefs (c1Env.parse "B")).length
          ((crawlHrefs (c1Env.parse "B")).getD j "") "out" ((r.stdout.drop 1).getD j "") :=
  C1_console_contract ⟨"L", 2000, false⟩ c1Env "out" [] "B" rfl rfl

lemma fsExists_fsWrite_self (fs : FS) (p c : String) :
    fsExists (fsWrite fs p c) p = true := by
  simp [fsExists, fsWrite]

lemma fsExists_fsWrite_mono (fs : FS) (p q c : String) (h : fsExists fs p = true) :
    fsExists (fsWrite fs q c) p = true := by
  by_cases hpq : p = q
  · subst hpq; exact fsExists_fsWrite_self fs p c
  · simp only [fsExists, fsWrite, List.any_cons, List.any_eq_true, beq_iff_eq,
      Bool.or_eq_true, List.mem_filter, bne_iff_ne] at h ⊢
    obtain ⟨e, he, hep⟩ := h
    exact Or.inr ⟨e, ⟨he, by rw [hep]; exact hpq⟩, hep⟩

lemma download_file_fs_cases (env : Env) (url path : String) (fs : FS) :
    (download_file env url path fs).fs = fs ∨
    ∃ c, (download_file env url path fs).fs = fsWrite fs path c := by
  unfold download_file
  rcases hg : env.get url with e | content
  · exact Or.inl rfl
  · rcases hw : env.writeErr path with _ | ex
    · exact Or.inr ⟨content, rfl⟩
    · exact Or.inl rfl

lemma fetch_loop_fs_mono (cfg : Config) (env : Env) (storage : String) (total : Nat) :
    ∀ (urls : List String) (idx : Nat) (fs : FS) (p : String), fsExists fs p = true →
      fsExists (fetch_loop cfg env storage total urls idx fs).fs p = true := by
  intro urls
  induction urls with
  | nil => intro idx fs p h; simpa [fetch_loop] using h
  | cons u rest ih =>
    intro idx fs p h
    have hdfs : fsExists (download_file env u (mkPath storage (derivedFilename u)) fs).fs
        p = true := by
      rcases download_file_fs_cases env u (mkPath storage (derivedFilename u)) fs with
        hd | ⟨c, hd⟩
      · rw [hd]; exact h
      · rw [hd]; exact fsExists_fsWrite_mono fs p _ c h
    by_cases hex : fsExists fs (mkPath storage (derivedFilename u)) = true
    · simp only [fetch_loop, hex, if_pos]
      exact ih (idx + 1) fs p h
    · simp only [fetch_loop, hex, Bool.false_eq_true, if_false]
      split
      · exact ih (idx + 1) _ p hdfs
      · exact ih (idx + 1) _ p hdfs

lemma fetch_loop_no_failure_exists (cfg : Config) (env : Env) (storage : String)
    (total : Nat) :
    ∀ (urls : List String) (idx : Nat) (fs : FS),
      (fetch_loop cfg env storage total urls idx fs).stderr = [] →
      ∀ url ∈ urls,
        fsExists (fetch_loop cfg env storage total urls idx fs).fs
          (mkPath storage (derivedFilename url)) = true := by
  intro urls
  induction urls with
  | nil => intro idx fs _ url hu; cases hu
  | cons u rest ih =>
    intro idx fs hstderr url hu
    by_cases hex : fsExists fs (mkPath storage (derivedFilename u)) = true
    · simp only [fetch_loop, hex, if_pos] at hstderr ⊢
      rcases List.mem_cons.mp hu with rfl | hu'
      · exact fetch_loop_fs_mono cfg env storage total rest (idx + 1) fs _ hex
      · exact ih (idx + 1) fs hstderr url hu'
    · rcases hg : env.get u with e | content
      · exfalso
        simp [fetch_loop, hex, download_file, hg] at hstderr
      · rcases hw : env.writeErr (mkPath storage (derivedFilename u)) with _ | ex
        · simp only [fetch_loop, hex, Bool.false_eq_true, if_false, download_file, hg, hw,
            List.nil_append, if_pos] at hstderr ⊢
          rcases List.mem_cons.mp hu with rfl | hu'
          · exact fetch_loop_fs_mono cfg env storage total rest (idx + 1) _ _
              (fsExists_fsWrite_self fs _ content)
          · exact ih (idx + 1) _ hstderr url hu'
        · exfalso
          simp [fetch_loop, hex, download_file, hg, hw] at hstderr

lemma fetch_loop_all_skip (cfg : Config) (env : Env) (storage : String) (total : Nat)
    (hq : cfg.quiet = false) :
    ∀ (urls : List String) (idx : Nat) (fs : FS),
      (∀ url ∈ urls, fsExists fs (mkPath storage (derivedFilename url)) = true) →
      (fetch_loop cfg env storage total urls idx fs).stderr = [] ∧
      (fetch_loop cfg env storage total urls idx fs).requests = [] ∧
      (fetch_loop cfg env storage total urls idx fs).fs = fs ∧
      (fetch_loop cfg env storage total urls idx fs).stdout.length = urls.length ∧
      ∀ j, j < urls.length →
        (fetch_loop cfg env storage total urls idx fs).stdout.getD j "" =
          skipLine (idx + j) total (derivedFilename (urls.getD j ""))
            (mkPath storage (derivedFilename (urls.getD j ""))) := by
  intro urls
  induction urls with
  | nil =>
    intro idx fs _
    exact ⟨rfl, rfl, rfl, rfl, fun j hj => absurd hj (Nat.not_lt_zero j)⟩
  | cons u rest ih =>
    intro idx fs hall
    have hex : fsExists fs (mkPath storage (derivedFilename u)) = true :=
      hall u (List.mem_cons_self u rest)
    have hrest : ∀ url ∈ rest, fsExists fs (mkPath storage (derivedFilename url)) = true :=
      fun url hu => hall url (List.mem_cons_of_mem u hu)
    obtain ⟨ih1, ih2, ih3, ih4, ih5⟩ := ih (idx + 1) fs hrest
    simp only [fetch_loop, hex, if_pos, mprint, hq, Bool.false_eq_true, if_false,
      List.cons_append, List.nil_append]
    refine ⟨ih1, ih2, ih3, by simp [ih4], ?_⟩
    intro j hj
    cases j with
    | zero => simp
    | succ j =>
      have h5 := ih5 j (by simpa using hj)
      have harith : idx + (j + 1) = (idx + 1) + j := by omega
      rw [harith]
      simpa using h5

/-- C7 counterexample: with a one-item listing whose download fails (network
error) in both runs, the second run reports the item as FAILURE, not SKIP —
so "the second run reports every item as SKIP" does not hold of the code
when the first run has failures. -/
theorem C7_counterexample :
    ∃ r1 r2 : RunResult,
      fetch_all ⟨"L", 0, false⟩ c7BadEnv "out" [] = Except.ok r1 ∧
      fetch_all ⟨"L", 0, false⟩ c7BadEnv "out" r1.fs = Except.ok r2 ∧
      r2.stdout.getD 1 "" = "[1/1] FAILURE: unable to download u" ∧
      r2.stdout.getD 1 "" ≠
        skipLine 0 1 (derivedFilename "u") (mkPath "out" (derivedFilename "u")) := by
  refine ⟨_, _, rfl, rfl, rfl, by decide⟩

/-- C7 (amended): if the first run succeeds and reports no per-item failure
(its stderr is empty), then running `fetch_all` again on the resulting
directory performs no download (the only request is the listing GET), leaves
the directory contents exactly as after the first run, and reports every
item as SKIP. -/
theorem C7_idempotence (cfg : Config) (env : Env) (storage : String) (fs0 : FS)
    (body : String) (r1 : RunResult)
    (hq : cfg.quiet = false)
    (hget : env.get cfg.list_url = Except.ok body)
    (h1 : fetch_all cfg env storage fs0 = Except.ok r1)
    (hnf : r1.stderr = []) :
    ∃ r2 : RunResult,
      fetch_all cfg env storage r1.fs = Except.ok r2 ∧
      r2.fs = r1.fs ∧
      r2.requests = [cfg.list_url] ∧
      r2.stdout.length = (crawlHrefs (env.parse body)).length + 1 ∧
      ∀ j, j < (crawlHrefs (env.parse body)).length →
        (r2.stdout.drop 1).getD j "" =
          skipLine j (crawlHrefs (env.parse body)).length
            (derivedFilename ((crawlHrefs (env.parse body)).getD j ""))
            (mkPath storage (derivedFilename ((crawlHrefs (env.parse body)).getD j ""))) := by
  unfold fetch_all at h1
  rw [hget] at h1
  injection h1 with h1'
  subst h1'
  simp only at hnf
  have hall := fetch_loop_no_failure_exists cfg env storage
    (crawlHrefs (env.parse body)).length (crawlHrefs (env.parse body)) 0 fs0 hnf
  obtain ⟨s1, s2, s3, s4, s5⟩ := fetch_loop_all_skip cfg env storage
    (crawlHrefs (env.parse body)).length hq (crawlHrefs (env.parse body)) 0
    (fetch_loop cfg env storage (crawlHrefs (env.parse body)).length
      (crawlHrefs (env.parse body)) 0 fs0).fs hall
  unfold fetch_all
  rw [hget]
  refine ⟨_, rfl, ?_, ?_, ?_, ?_⟩
  · exact s3
  · simp [s2]
  · simp [mprint, hq, s4]
  · intro j hj
    have h5 := s5 j hj
    simpa [mprint, hq] using h5

/-- Witness for the amended C7: a one-item listing whose download succeeds
in the first run; the second run skips it. -/
theorem C7_idempotence_witness :
    ∃ r2 : RunResult,
      fetch_all ⟨"L", 0, false⟩ c7Env "out"
        (⟨["Found total 1 datasets, downloading with 0 millisecond staggering",
           "[1/1] SUCCESS: stored f.gz to out/f.gz"], [],
          ["L", "downfile=data%2Ff.gz"], [("out/f.gz", "DATA")]⟩ : RunResult).fs =
        Except.ok r2 ∧
      r2.fs = (⟨["Found total 1 datasets, downloading with 0 millisecond staggering",
           "[1/1] SUCCESS: stored f.gz to out/f.gz"], [],
          ["L", "downfile=data%2Ff.gz"], [("out/f.gz", "DATA")]⟩ : RunResult).fs ∧
      r2.requests = ["L"] ∧
      r2.stdout.length = (crawlHrefs (c7Env.parse "B")).length + 1 ∧
      ∀ j, j < (crawlHrefs (c7Env.parse "B")).length →
        (r2.stdout.drop 1).getD j "" =
          skipLine j (crawlHrefs (c7Env.parse "B")).length
            (derivedFilename ((crawlHrefs (c7Env.parse "B")).getD j ""))
            (mkPath "out" (derivedFilename ((crawlHrefs (c7Env.parse "B")).getD j ""))) :=
  C7_idempotence ⟨"L", 0, false⟩ c7Env "out" [] "B"
    ⟨["Found total 1 datasets, downloading with 0 millisecond staggering",
      "[1/1] SUCCESS: stored f.gz to out/f.gz"], [],
     ["L", "downfile=data%2Ff.gz"], [("out/f.gz", "DATA")]⟩
    rfl rfl rfl rfl

lemma pySplitF_ne_nil (sep : List Char) : ∀ (fuel : Nat) (s : List Char),
    pySplitF sep fuel s ≠ [] := by
  intro fuel s
  match fuel, s with
  | _, [] => simp [pySplitF]
  | 0, c :: rest => simp [pySplitF]
  | fuel + 1, c :: rest =>
    rw [pySplitF]
    split
    · simp
    · split <;> simp

lemma borderFree_no_inner (sep : List Char) (hbf : BorderFree sep) (t : List Char)
    (j : Nat) (h0 : 0 < j) (hj : j < sep.length) : ¬ sep <+: (sep.drop j ++ t) := by
  intro h
  have h1 : sep.drop j <+: sep.drop j ++ t := List.prefix_append _ _
  have hlen : (sep.drop j).length ≤ sep.length := by simp [List.length_drop]
  exact hbf j hj h0 ( List.prefix_of_prefix_length_le h1 h hlen)

lemma afterLast_cons_of_not_match (sep : List Char) (c : Char) (u : List Char)
    (h : ¬ sep <+: (c :: u)) : afterLast sep (c :: u) = afterLast sep u := by
  rw [afterLast]
  cases hA : afterLast sep u with
  | none => simp [hA, h]
  | some t => simp [hA]

lemma afterLast_append_of_no_match (sep : List Char) :
    ∀ (u v : List Char), (∀ k, k < u.length → ¬ sep <+: (u.drop k ++ v)) →
      afterLast sep (u ++ v) = afterLast sep v := by
  intro u
  induction u with
  | nil => intro v _; rfl
  | cons c u' ih =>
    intro v h
    have h0 : ¬ sep <+: (c :: (u' ++ v)) := by
      have := h 0 (by simp)
      simpa using this
    rw [List.cons_append, afterLast_cons_of_not_match sep c (u' ++ v) h0]
    refine ih v (fun k hk => ?_)
    have := h (k + 1) (by simp; omega)
    simpa using this

lemma afterLast_of_prefix (sep : List Char) (hsep : sep ≠ []) (hbf : BorderFree sep)
    (s : List Char) (hpre : sep <+: s) :
    afterLast sep s =
      some ((afterLast sep (s.drop sep.length)).getD (s.drop sep.length)) := by
  obtain ⟨t, ht⟩ := hpre
  subst ht
  cases sep with
  | nil => exact absurd rfl hsep
  | cons c sep' =>
    have hdrop : ((c :: sep') ++ t).drop (c :: sep').length = t := List.drop_left _ _
    rw [hdrop, List.cons_append, afterLast]
    have hinner : afterLast (c :: sep') (sep' ++ t) = afterLast (c :: sep') t := by
      apply afterLast_append_of_no_match
      intro k hk
      have := borderFree_no_inner (c :: sep') hbf t (k + 1) (Nat.succ_pos k)
        (by simp; omega)
      simpa using this
    rw [hinner]
    cases hA : afterLast (c :: sep') t with
    | none =>
      have hp : (c :: sep') <+: (c :: (sep' ++ t)) := ⟨t, by simp⟩
      simp only [hA, if_pos hp, Option.getD_none]
      have : (c :: (sep' ++ t)).drop (c :: sep').length = t := by
        rw [← List.cons_append]
        exact List.drop_left _ _
      rw [this]
    | some x => simp [hA]

lemma pySplitF_singleton (sep : List Char) :
    ∀ (fuel : Nat) (s p : List Char), pySplitF sep fuel s = [p] → p = s := by
  intro fuel
  induction fuel with
  | zero =>
    intro s p h
    cases s with
    | nil =>
      have h' : ([[]] : List (List Char)) = [p] := h
      injection h' with h1 _
      exact h1.symm
    | cons c rest =>
      have h' : ([c :: rest] : List (List Char)) = [p] := h
      injection h' with h1 _
      exact h1.symm
  | succ fuel ih =>
    intro s p h
    cases s with
    | nil =>
      have h' : ([[]] : List (List Char)) = [p] := h
      injection h' with h1 _
      exact h1.symm
    | cons c rest =>
      rw [pySplitF] at h
      by_cases hpre : sep <+: (c :: rest)
      · rw [if_pos hpre] at h
        injection h with h1 h2
        exact absurd h2 (pySplitF_ne_nil sep fuel _)
      · rw [if_neg hpre] at h
        cases hq : pySplitF sep fuel rest with
        | nil => exact absurd hq (pySplitF_ne_nil sep fuel rest)
        | cons p' ps =>
          rw [hq] at h
          simp only at h
          injection h with h1 h2
          subst h2
          have := ih rest p' hq
          subst this
          exact h1.symm

lemma pySplitF_of_afterLast_none (sep : List Char) :
    ∀ (fuel : Nat) (s : List Char), s.length ≤ fuel → afterLast sep s = none →
      pySplitF sep fuel s = [s] := by
  intro fuel
  induction fuel with
  | zero =>
    intro s hs _
    have : s = [] := List.length_eq_zero.mp (Nat.le_zero.mp hs)
    subst this
    rfl
  | succ fuel ih =>
    intro s hs hA
    cases s with
    | nil => rfl
    | cons c rest =>
      rw [afterLast] at hA
      cases hR : afterLast sep rest with
      | some t => rw [hR] at hA; simp at hA
      | none =>
        rw [hR] at hA
        simp only at hA
        by_cases hpre : sep <+: (c :: rest)
        · rw [if_pos hpre] at hA; simp at hA
        · rw [pySplitF, if_neg hpre, ih rest (by simpa using hs) hR]

lemma afterLast_none_of_pySplitF (sep : List Char) :
    ∀ (fuel : Nat) (s : List Char), s.length ≤ fuel → pySplitF sep fuel s = [s] →
      afterLast sep s = none := by
  intro fuel
  induction fuel with
  | zero =>
    intro s hs _
    have : s = [] := List.length_eq_zero.mp (Nat.le_zero.mp hs)
    subst this
    rfl
  | succ fuel ih =>
    intro s hs h
    cases s with
    | nil => rfl
    | cons c rest =>
      rw [pySplitF] at h
      by_cases hpre : sep <+: (c :: rest)
      · rw [if_pos hpre] at h
        injection h with h1 _
        exact absurd h1.symm (by simp)
      · rw [if_neg hpre] at h
        cases hq : pySplitF sep fuel rest with
        | nil => exact absurd hq (pySplitF_ne_nil sep fuel rest)
        | cons p' ps =>
          rw [hq] at h
          simp only at h
          injection h with h1 h2
          subst h2
          injection h1 with _ h3
          rw [afterLast_cons_of_not_match sep c rest hpre]
          exact ih rest (by simpa using hs) (h3 ▸ hq)

lemma lastPiece_pySplitF (sep : List Char) (hsep : sep ≠ []) (hbf : BorderFree sep) :
    ∀ (fuel : Nat) (s : List Char), s.length ≤ fuel →
      lastPiece (pySplitF sep fuel s) = (afterLast sep s).getD s := by
  intro fuel
  induction fuel with
  | zero =>
    intro s hs
    have : s = [] := List.length_eq_zero.mp (Nat.le_zero.mp hs)
    subst this
    rfl
  | succ fuel ih =>
    intro s hs
    cases s with
    | nil => rfl
    | cons c rest =>
      by_cases hpre : sep <+: (c :: rest)
      · rw [pySplitF, if_pos hpre]
        have hne := pySplitF_ne_nil sep fuel ((c :: rest).drop sep.length)
        have hlp : lastPiece ([] :: pySplitF sep fuel ((c :: rest).drop sep.length)) =
            lastPiece (pySplitF sep fuel ((c :: rest).drop sep.length)) := by
          cases hq : pySplitF sep fuel ((c :: rest).drop sep.length) with
          | nil => exact absurd hq hne
          | cons p ps => rfl
        have hsl : 1 ≤ sep.length := by
          cases sep with
          | nil => exact absurd rfl hsep
          | cons a l => simp
        have hlen : ((c :: rest).drop sep.length).length ≤ fuel := by
          simp only [List.length_drop, List.length_cons]
          have : rest.length + 1 ≤ fuel + 1 := by simpa using hs
          omega
        rw [hlp, ih _ hlen, afterLast_of_prefix sep hsep hbf _ hpre]
        rfl
      · rw [pySplitF, if_neg hpre]
        have hA3 := afterLast_cons_of_not_match sep c rest hpre
        cases hq : pySplitF sep fuel rest with
        | nil => exact absurd hq (pySplitF_ne_nil sep fuel rest)
        | cons p ps =>
          simp only
          cases hA : afterLast sep rest with
          | none =>
            have hone : pySplitF sep fuel rest = [rest] :=
              pySplitF_of_afterLast_none sep fuel rest (by simpa using hs) hA
            rw [hq] at hone
            injection hone with h1 h2
            subst h1
            subst h2
            rw [hA3, hA]
            rfl
          | some x =>
            have hih := ih rest (by simpa using hs)
            rw [hq] at hih
            have hpsne : ps ≠ [] := by
              intro hps
              subst hps
              have hp := pySplitF_singleton sep fuel rest p hq
              rw [hp] at hq
              have := afterLast_none_of_pySplitF sep fuel rest (by simpa using hs) hq
              rw [this] at hA
              exact Option.noConfusion hA
            have hlp : lastPiece ((c :: p) :: ps) = lastPiece (p :: ps) := by
              cases ps with
              | nil => exact absurd rfl hpsne
              | cons z zs => rfl
            rw [hlp, hih, hA3, hA]
            rfl

lemma marker_ne_nil : FILENAME_MARKER.toList ≠ [] := by decide

lemma marker_borderFree : BorderFree FILENAME_MARKER.toList := by
  unfold BorderFree
  decide

/-- C2: for every dataset URL, the derived filename
(`url.split("downfile=data%2F")[-1]`) equals the substring of the URL
following the last occurrence of the marker token, or the whole URL when the
marker is absent; in particular a URL ending in `downfile=data%2Ffoo.tsv.gz`
yields exactly `foo.tsv.gz`. -/
theorem C2_filename_derivation :
    (∀ url : String, derivedFilename url = filenameSpec url) ∧
    derivedFilename
      "https://ec.europa.eu/eurostat/BulkDownloadListing?downfile=data%2Ffoo.tsv.gz" =
      "foo.tsv.gz" := by
  have huniv : ∀ url : String, derivedFilename url = filenameSpec url := by
    intro url
    unfold derivedFilename filenameSpec pySplit
    congr 1
    exact lastPiece_pySplitF FILENAME_MARKER.toList marker_ne_nil marker_borderFree
      url.toList.length url.toList (le_refl _)
  refine ⟨huniv, ?_⟩
  rw [huniv]
  decide

end Eurostat






